import Mathlib

/-!
Shallow embedding of `FormalLinguisticsEngine`, a browser front-end for
finite-automata experiments.  The two source files are React components:

* `src/ling_engine_ui/src/components/layout/ui-container/subsections/nfa-to-regular-grammar.js`
  (class `NfaToRegularGrammar`): form state, the grammar renderer
  `renderGrammar`, the request builder `_generateRequestBody`, the graph-input
  builder `_generateGraphInput`, the edit handlers, and the double POST in
  `_convertToRegularGrammar` with its success/failure continuations.
* `src/unnamed/part_000` (class `UiContainer`): form state, raw-text transition
  map edited as a string, `_generateGraphInput` with `JSON.parse` at the
  Visualize click.

JavaScript strings are modelled as Lean `String` (a list of characters);
JavaScript arrays as `List`; `null`-able fields as `Option`; a parsed JSON
transition-map object as a nested association list; lodash `clone` (a shallow
copy, indistinguishable from the original in a pure value semantics) as the
identity.  Object key order is meaningful in JavaScript (`Object.entries`
preserves insertion order for non-index string keys), so JSON objects become
ordered association lists.
-/

/-- Parsed transition-map object: state → symbol → list of destination states,
as an ordered association list (JSON object with insertion order). -/
abbrev TransMap : Type := List (String × List (String × List String))

/-- Grammar result object of the grammar endpoint (`response.data.result`):
left-hand-side nonterminal → ordered list of right-hand-side strings. -/
abbrev Grammar : Type := List (String × List String)

/-- lodash `clone`: shallow copy; in a pure value semantics the copy is
indistinguishable from the original, so it is the identity. -/
def clone {α : Type} (x : α) : α := x

/-! ### The grammar renderer (`renderGrammar`, nfa-to-regular-grammar.js 191-220)

For each `Object.entries` pair `grammarItems = [lhs, rhsList]` the code runs

  const initial = grammarItems[0];
  let rules = clone(grammarItems);
  rules.shift();              // rules = [rhsList]
  rules = split(rules, ',');  // lodash: String([rhsList]) = rhsList.join(',')
                              // then .split(',')

and renders one `<p>` with `` `${initial} -> ${rule}` `` per element of
`rules`.  So the lines for a state are the comma-split of the comma-join of
its right-hand-side list.  JavaScript `''.split(',')` is `['']`, which the
embedding of `split` below reproduces. -/

/-- JavaScript `String.prototype.split(',')` on a character list: cut at every
comma; the empty string yields `[[]]` (JS `''.split(',') === ['']`). -/
def splitCommaAux : List Char → List Char → List (List Char)
  | [], acc => [acc.reverse]
  | c :: cs, acc =>
    if c = ',' then acc.reverse :: splitCommaAux cs [] else splitCommaAux cs (c :: acc)

/-- JavaScript `s.split(',')` for a Lean `String`. -/
def splitComma (s : String) : List String :=
  (splitCommaAux s.data []).map String.mk

/-- JavaScript `Array.prototype.join(',')` (the array-to-string conversion
lodash `split` applies to its first argument) on character lists. -/
def joinCommaChars : List (List Char) → List Char
  | [] => []
  | [x] => x
  | x :: y :: ys => x ++ ',' :: joinCommaChars (y :: ys)

/-- JavaScript `l.join(',')` for Lean `String`s. -/
def joinComma (l : List String) : String :=
  String.mk (joinCommaChars (l.map String.data))

/-- The display lines `renderGrammar` emits for one `Object.entries` pair
`[lhs, rhss]`: comma-split of the comma-join of `rhss`, each fragment shown
as `` `${lhs} -> ${fragment}` ``. -/
def renderState (lhs : String) (rhss : List String) : List String :=
  (splitComma (joinComma rhss)).map (fun rule => lhs ++ " -> " ++ rule)

/-- `renderGrammar(resultingGrammar)`: the flattened sequence of display lines,
one block per `Object.entries` pair, in object insertion order. -/
def renderGrammar (g : Grammar) : List String :=
  g.flatMap (fun p => renderState p.1 p.2)

/-! ### Split/join facts used to settle the renderer claims -/

theorem splitCommaAux_append_of_nocomma (x : List Char) (hx : (',' : Char) ∉ x)
    (rest acc : List Char) :
    splitCommaAux (x ++ rest) acc = splitCommaAux rest (x.reverse ++ acc) := by
  induction x generalizing acc with
  | nil => simp [splitCommaAux]
  | cons c cs ih =>
    have hc : c ≠ ',' := fun h => hx (h ▸ List.mem_cons_self c cs)
    have hcs : (',' : Char) ∉ cs := fun h => hx (List.mem_cons_of_mem c h)
    show splitCommaAux (c :: (cs ++ rest)) acc = _
    rw [splitCommaAux, if_neg hc, ih hcs]
    simp [List.reverse_cons, List.append_assoc]

theorem splitCommaAux_join_of_nocomma (l : List (List Char)) (hne : l ≠ [])
    (h : ∀ x ∈ l, (',' : Char) ∉ x) :
    splitCommaAux (joinCommaChars l) [] = l := by
  induction l with
  | nil => exact absurd rfl hne
  | cons x xs ih =>
    have hx : (',' : Char) ∉ x := h x (List.mem_cons_self x xs)
    cases xs with
    | nil =>
      show splitCommaAux x [] = [x]
      have := splitCommaAux_append_of_nocomma x hx [] []
      simpa [splitCommaAux] using this
    | cons y ys =>
      show splitCommaAux (x ++ ',' :: joinCommaChars (y :: ys)) [] = x :: y :: ys
      rw [splitCommaAux_append_of_nocomma x hx]
      have h2 : splitCommaAux (',' :: joinCommaChars (y :: ys)) (x.reverse ++ []) =
          (x.reverse ++ []).reverse :: splitCommaAux (joinCommaChars (y :: ys)) [] := by
        rw [splitCommaAux, if_pos rfl]
      rw [h2, ih (by simp) (fun z hz => h z (List.mem_cons_of_mem x hz))]
      simp

theorem splitComma_joinComma (l : List String) (hne : l ≠ [])
    (h : ∀ s ∈ l, (',' : Char) ∉ s.data) :
    splitComma (joinComma l) = l := by
  unfold splitComma joinComma
  rw [show (String.mk (joinCommaChars (l.map String.data))).data
        = joinCommaChars (l.map String.data) from rfl]
  rw [splitCommaAux_join_of_nocomma (l.map String.data)
        (by simpa using hne)
        (by intro x hx
            rcases List.mem_map.mp hx with ⟨s, hs, rfl⟩
            exact h s hs)]
  rw [List.map_map]
  have : ∀ s ∈ l, (String.mk ∘ String.data) s = s := by
    intro s _
    cases s
    rfl
  calc l.map (String.mk ∘ String.data) = l.map id := List.map_congr_left this
    _ = l := List.map_id l

theorem splitCommaAux_length (s : List Char) :
    ∀ acc, (splitCommaAux s acc).length = s.count ',' + 1 := by
  induction s with
  | nil => intro acc; simp [splitCommaAux]
  | cons c cs ih =>
    intro acc
    by_cases hc : c = ','
    · subst hc
      simp [splitCommaAux, ih, List.count_cons, Nat.add_comm]
    · simp [splitCommaAux, if_neg hc, ih, List.count_cons, hc]

theorem string_append_empty (s : String) : s ++ "" = s := by
  apply String.ext
  rw [String.data_append]
  show s.data ++ [] = s.data
  exact List.append_nil s.data

theorem joinCommaChars_count (x : List Char) (xs : List (List Char)) :
    (joinCommaChars (x :: xs)).count ',' =
      ((x :: xs).map (fun y => y.count ',')).sum + xs.length := by
  induction xs generalizing x with
  | nil => simp [joinCommaChars]
  | cons y ys ih =>
    show (x ++ ',' :: joinCommaChars (y :: ys)).count ',' = _
    rw [List.count_append, List.count_cons]
    rw [ih y]
    simp [Nat.add_comm, Nat.add_assoc, Nat.add_left_comm]

/-! ### Claims C1, C6, C10 about the grammar renderer -/

/-- C1 (counterexample): as stated — one display line per right-hand-side
entry for every well-formed grammar result — the claim is false.  At the
grammar result `{"q0": ["a,b"]}` (one entry whose string contains a comma) the
renderer emits two lines, and at `{"q1": []}` it emits one line `q1 -> `
rather than zero. -/
theorem renderGrammar_line_count_cex :
    renderGrammar [("q0", ["a,b"])] = ["q0 -> a", "q0 -> b"]
    ∧ (renderGrammar [("q0", ["a,b"])]).length ≠ 1
    ∧ renderGrammar [("q1", ([] : List String))] = ["q1 -> "]
    ∧ (renderGrammar [("q1", ([] : List String))]).length ≠ 0 := by
  decide

/-- C1 (amended): for every well-formed grammar result in which each state has
a non-empty right-hand-side list and no right-hand-side string contains a
comma, the renderer produces exactly one `LHS -> RHS` display line per
right-hand-side entry, preserving the per-state order and the per-rule order
within each state. -/
theorem renderGrammar_one_line_per_entry (g : Grammar)
    (h1 : ∀ p ∈ g, p.2 ≠ [])
    (h2 : ∀ p ∈ g, ∀ r ∈ p.2, (',' : Char) ∉ r.data) :
    renderGrammar g = g.flatMap (fun p => p.2.map (fun r => p.1 ++ " -> " ++ r)) := by
  induction g with
  | nil => rfl
  | cons p ps ih =>
    have hmem := List.mem_cons_self p ps
    have hp2 : splitComma (joinComma p.2) = p.2 :=
      splitComma_joinComma p.2 (h1 p hmem) (h2 p hmem)
    have hps := ih (fun q hq => h1 q (List.mem_cons_of_mem p hq))
      (fun q hq => h2 q (List.mem_cons_of_mem p hq))
    simp only [renderGrammar, List.flatMap_cons] at hps ⊢
    rw [renderState, hp2, hps]

/-- C1 (witness): on the spec's example `{"q0": ["a","aq1"], "q1": ["b"]}` the
renderer yields `q0 -> a`, `q0 -> aq1`, `q1 -> b`, in that order. -/
theorem renderGrammar_one_line_per_entry_witness :
    renderGrammar [("q0", ["a", "aq1"]), ("q1", ["b"])] =
      ["q0 -> a", "q0 -> aq1", "q1 -> b"] :=
  (renderGrammar_one_line_per_entry [("q0", ["a", "aq1"]), ("q1", ["b"])]
    (by decide) (by decide)).trans (by decide)

/-- C6 (counterexample): a state mapped to an empty right-hand-side list does
not render as nothing; the renderer emits one line with an empty right-hand
side. -/
theorem renderGrammar_empty_rules_cex :
    renderGrammar [("q0", ([] : List String))] = ["q0 -> "]
    ∧ renderGrammar [("q0", ([] : List String))] ≠ [] := by
  decide

/-- C6 (amended): for every state that maps to an empty right-hand-side list,
the renderer emits exactly one display line for that state, `LHS -> ` with an
empty right-hand side (because JavaScript splits the empty string into one
empty fragment), rather than zero lines. -/
theorem renderState_empty_rules (lhs : String) :
    renderState lhs [] = [lhs ++ " -> "] := by
  show [lhs ++ " -> " ++ String.mk []] = [lhs ++ " -> "]
  rw [show String.mk [] = "" from rfl, string_append_empty]

/-- C10: for every state of a grammar result, the renderer's lines for that
state are the comma-split of the comma-join of the state's right-hand-side
list (and the whole output is their concatenation in state order);
consequently, whenever some right-hand-side string itself contains a comma,
the renderer emits strictly more lines for that state than the state has
right-hand-side entries — the comma-carrying entry is split into one line per
fragment instead of a single line. -/
theorem renderState_split_join (lhs : String) (rhss : List String) (g : Grammar) :
    renderState lhs rhss =
      (splitComma (joinComma rhss)).map (fun rule => lhs ++ " -> " ++ rule)
    ∧ renderGrammar g = g.flatMap (fun p => renderState p.1 p.2)
    ∧ (∀ r ∈ rhss, (',' : Char) ∈ r.data →
        rhss.length < (renderState lhs rhss).length) := by
  refine ⟨rfl, rfl, ?_⟩
  intro r hr hcomma
  obtain ⟨x, xs, rfl⟩ : ∃ x xs, rhss = x :: xs := by
    cases rhss with
    | nil => cases hr
    | cons x xs => exact ⟨x, xs, rfl⟩
  have hcount : 1 ≤ r.data.count ',' := List.one_le_count_iff.mpr hcomma
  have hsum : r.data.count ',' ≤
      (((x :: xs).map String.data).map (fun y => y.count ',')).sum := by
    refine List.single_le_sum (fun n _ => Nat.zero_le n) _ ?_
    exact List.mem_map.mpr ⟨r.data, List.mem_map.mpr ⟨r, hr, rfl⟩, rfl⟩
  have hlen : (renderState lhs (x :: xs)).length =
      (((x :: xs).map String.data).map (fun y => y.count ',')).sum + xs.length + 1 := by
    unfold renderState splitComma joinComma
    rw [List.length_map, List.length_map, splitCommaAux_length]
    show (joinCommaChars (x.data :: xs.map String.data)).count ',' + 1 = _
    rw [joinCommaChars_count]
    simp
  rw [hlen]
  simp only [List.length_cons]
  omega

/-- C10 (witness): at the state `q0` with right-hand-side list `["a,b"]` the
renderer emits strictly more lines (two) than the list has entries (one). -/
theorem renderState_split_join_witness :
    (["a,b"] : List String).length < (renderState "q0" ["a,b"]).length :=
  (renderState_split_join "q0" ["a,b"] []).2.2 "a,b" (by decide) (by decide)

/-! ### Component state of `NfaToRegularGrammar` (nfa-to-regular-grammar.js)

The constructor's `this.state` object, with `null`-initialised result fields
as `Option`.  `initial` is a tag-list in the form, hence a list of strings
even though the request sends a single state. -/

/-- Graph-input object built by `_generateGraphInput` (nfa-to-regular-grammar.js
232-240) out of the five `resulting*` fields of a DFA response. -/
structure GraphInput where
  alphabet : List String
  states : List String
  initial : String
  finals : List String
  transitionMap : TransMap
deriving DecidableEq, Repr

/-- The component state of class `NfaToRegularGrammar` (constructor, lines
45-63). -/
structure NfaState where
  alphabet : List String
  states : List String
  initial : List String
  finals : List String
  transitionMap : TransMap
  graphInput : Option GraphInput
  isModalOpen : Bool
  resultingAlphabet : Option (List String)
  resultingStates : Option (List String)
  resultingInitial : Option String
  resultingFinals : Option (List String)
  resultingTransitionMap : Option TransMap
  resultingGrammar : Option Grammar
  loading : Bool
deriving DecidableEq, Repr

/-- The constructor's initial `this.state`. -/
def nfaState0 : NfaState :=
  { alphabet := ["a", "b"]
    states := ["Q", "W", "E"]
    initial := ["Q"]
    finals := ["W"]
    transitionMap := []
    graphInput := none
    isModalOpen := false
    resultingAlphabet := none
    resultingStates := none
    resultingInitial := none
    resultingFinals := none
    resultingTransitionMap := none
    resultingGrammar := none
    loading := false }

/-- `_handleAlphabetChange(alphabet)`: `this.setState({alphabet})`. -/
def handleAlphabetChange (st : NfaState) (alphabet : List String) : NfaState :=
  { st with alphabet := alphabet }

/-- `_handleStatesChange(states)`: `this.setState({states})`. -/
def handleStatesChange (st : NfaState) (states : List String) : NfaState :=
  { st with states := states }

/-- `_handleInitialChange(initial)`: `this.setState({initial})`. -/
def handleInitialChange (st : NfaState) (initial : List String) : NfaState :=
  { st with initial := initial }

/-- `_handleFinalsChange(finals)`: `this.setState({finals})`. -/
def handleFinalsChange (st : NfaState) (finals : List String) : NfaState :=
  { st with finals := finals }

/-- `_handleTransitionMapChange(parsedMap)`: `this.setState({transitionMap:
parsedMap})` — the JSON editor widget hands the component an already parsed
object. -/
def handleTransitionMapChange (st : NfaState) (parsedMap : TransMap) : NfaState :=
  { st with transitionMap := parsedMap }

/-- Request body built by `_generateRequestBody` (lines 222-230).  `initial`
is `clone(input.initial)[0]`: JavaScript indexing at 0, `undefined` (here
`none`) on an empty list — a single state identifier, not an array. -/
structure RequestBody where
  alphabet : List String
  states : List String
  initial : Option String
  finals : List String
  transitionMap : TransMap
deriving DecidableEq, Repr

/-- `_generateRequestBody(input)` (nfa-to-regular-grammar.js 222-230). -/
def generateRequestBody (input : NfaState) : RequestBody :=
  { alphabet := clone input.alphabet
    states := clone input.states
    initial := (clone input.initial)[0]?
    finals := clone input.finals
    transitionMap := clone input.transitionMap }

/-- The five `resulting*` fields assembled in the DFA-success continuation
(`stateToSet`, lines 271-277), which `_generateGraphInput` then reads. -/
structure StateToSet where
  resultingTransitionMap : TransMap
  resultingStates : List String
  resultingInitial : String
  resultingFinals : List String
  resultingAlphabet : List String
deriving DecidableEq, Repr

/-- `_generateGraphInput(input)` (nfa-to-regular-grammar.js 232-240). -/
def generateGraphInput (input : StateToSet) : GraphInput :=
  { alphabet := clone input.resultingAlphabet
    states := clone input.resultingStates
    initial := clone input.resultingInitial
    finals := clone input.resultingFinals
    transitionMap := clone input.resultingTransitionMap }

/-! ### The two concurrent conversion round-trips (`_convertToRegularGrammar`,
nfa-to-regular-grammar.js 262-302)

One button press sets `loading: true`, then issues two independent
`axios.post`s (DFA endpoint, grammar endpoint).  Each continuation is an
independent event on the single UI thread; the embedding replays any
interleaving of the four possible completions as a fold over an event list.
`alert(...)` calls are collected in an output log. -/

/-- `response.data` of the DFA endpoint:
`{transitionMap, states, initial, finals, alphabet}`. -/
structure DfaResponse where
  transitionMap : TransMap
  states : List String
  initial : String
  finals : List String
  alphabet : List String
deriving DecidableEq, Repr

/-- The `stateToSet` object the DFA-success continuation builds from
`response.data` (lines 271-277). -/
def stateToSetOfResponse (resp : DfaResponse) : StateToSet :=
  { resultingTransitionMap := resp.transitionMap
    resultingStates := resp.states
    resultingInitial := resp.initial
    resultingFinals := resp.finals
    resultingAlphabet := resp.alphabet }

/-- DFA-success continuation (lines 270-284): spread `stateToSet` into the
component state, set `graphInput` from `_generateGraphInput(stateToSet)`, and
clear `loading`. -/
def dfaSuccessHandler (st : NfaState) (resp : DfaResponse) : NfaState :=
  let stateToSet := stateToSetOfResponse resp
  { st with
    resultingTransitionMap := some stateToSet.resultingTransitionMap
    resultingStates := some stateToSet.resultingStates
    resultingInitial := some stateToSet.resultingInitial
    resultingFinals := some stateToSet.resultingFinals
    resultingAlphabet := some stateToSet.resultingAlphabet
    graphInput := some (generateGraphInput stateToSet)
    loading := false }

/-- Grammar-success continuation (lines 289-298): set `resultingGrammar` from
`response.data.result` and clear `loading`. -/
def grammarSuccessHandler (st : NfaState) (g : Grammar) : NfaState :=
  { st with resultingGrammar := some g, loading := false }

/-- The text both catch handlers pass to `alert` (lines 286 and 300). -/
def errorAlert (err : String) : String := "Error while fetchin data!" ++ err

/-- Observable world: the component state plus the log of alerts raised. -/
structure ConvWorld where
  comp : NfaState
  alerts : List String
deriving DecidableEq, Repr

/-- The discrete events of one conversion flow: the button press and the four
possible request completions. -/
inductive ConvEvent where
  | submit
  | dfaSuccess (resp : DfaResponse)
  | dfaFailure (err : String)
  | grammarSuccess (g : Grammar)
  | grammarFailure (err : String)
deriving DecidableEq, Repr

/-- One event on the single UI thread.  Note the two failure continuations
(lines 285-287 and 299-301) only `alert`; they perform no `setState`. -/
def convStep (w : ConvWorld) : ConvEvent → ConvWorld
  | .submit => { w with comp := { w.comp with loading := true } }
  | .dfaSuccess resp => { w with comp := dfaSuccessHandler w.comp resp }
  | .dfaFailure err => { w with alerts := w.alerts ++ [errorAlert err] }
  | .grammarSuccess g => { w with comp := grammarSuccessHandler w.comp g }
  | .grammarFailure err => { w with alerts := w.alerts ++ [errorAlert err] }

/-- Replay a sequence of events. -/
def convRun (w : ConvWorld) (es : List ConvEvent) : ConvWorld :=
  es.foldl convStep w

/-! ### Claims C2, C3, C5 about the conversion flow -/

/-- C5: the request body sent to the remote conversion service has shape
`{alphabet: [string], states: [string], initial: string, finals: [string],
transitionMap: object}`; its `initial` field is exactly the one state
identifier at the head of the edited initial-state list (not an array). -/
theorem generateRequestBody_shape (st : NfaState) (s : String) (rest : List String)
    (h : st.initial = s :: rest) :
    generateRequestBody st =
      { alphabet := st.alphabet
        states := st.states
        initial := some s
        finals := st.finals
        transitionMap := st.transitionMap } := by
  simp [generateRequestBody, clone, h]

/-- C5 (witness): the constructor state edits `initial = ["Q"]`, and the
request built from it carries `initial = "Q"` alone. -/
theorem generateRequestBody_shape_witness :
    generateRequestBody nfaState0 =
      { alphabet := ["a", "b"]
        states := ["Q", "W", "E"]
        initial := some "Q"
        finals := ["W"]
        transitionMap := [] } :=
  generateRequestBody_shape nfaState0 "Q" [] rfl

/-- C2: when one of the two concurrent requests fails and the other succeeds,
each completion touches only its own slice of result state.  If the grammar
request fails and the DFA request succeeds (in either completion order), the
graph still updates with the DFA result, the grammar slice is not rolled
back, and exactly one error alert (the failed request's) is raised; and
symmetrically when the DFA request fails and the grammar request succeeds. -/
theorem convert_independent_slices (st : NfaState) (resp : DfaResponse)
    (g : Grammar) (err : String) :
    ((convRun ⟨st, []⟩ [.submit, .dfaSuccess resp, .grammarFailure err]).comp.graphInput
        = some (generateGraphInput (stateToSetOfResponse resp))
      ∧ (convRun ⟨st, []⟩ [.submit, .dfaSuccess resp, .grammarFailure err]).comp.resultingGrammar
        = st.resultingGrammar
      ∧ (convRun ⟨st, []⟩ [.submit, .dfaSuccess resp, .grammarFailure err]).alerts
        = [errorAlert err])
    ∧ (convRun ⟨st, []⟩ [.submit, .grammarFailure err, .dfaSuccess resp]
        = convRun ⟨st, []⟩ [.submit, .dfaSuccess resp, .grammarFailure err])
    ∧ ((convRun ⟨st, []⟩ [.submit, .dfaFailure err, .grammarSuccess g]).comp.resultingGrammar
        = some g
      ∧ (convRun ⟨st, []⟩ [.submit, .dfaFailure err, .grammarSuccess g]).comp.graphInput
        = st.graphInput
      ∧ (convRun ⟨st, []⟩ [.submit, .dfaFailure err, .grammarSuccess g]).comp.resultingAlphabet
        = st.resultingAlphabet
      ∧ (convRun ⟨st, []⟩ [.submit, .dfaFailure err, .grammarSuccess g]).comp.resultingStates
        = st.resultingStates
      ∧ (convRun ⟨st, []⟩ [.submit, .dfaFailure err, .grammarSuccess g]).comp.resultingInitial
        = st.resultingInitial
      ∧ (convRun ⟨st, []⟩ [.submit, .dfaFailure err, .grammarSuccess g]).comp.resultingFinals
        = st.resultingFinals
      ∧ (convRun ⟨st, []⟩ [.submit, .dfaFailure err, .grammarSuccess g]).comp.resultingTransitionMap
        = st.resultingTransitionMap
      ∧ (convRun ⟨st, []⟩ [.submit, .dfaFailure err, .grammarSuccess g]).alerts
        = [errorAlert err]) :=
  ⟨⟨rfl, rfl, rfl⟩, rfl, rfl, rfl, rfl, rfl, rfl, rfl, rfl, rfl⟩

/-- C3 (code evaluated at the failing input): after a submission whose two
requests both fail, the claimed `Failed → Idle` transition does not happen:
the catch handlers raise the error alerts and leave every previously
displayed result unchanged, but `loading` is still `true` — the spinner is
never cleared, because neither catch performs a `setState`. -/
theorem loading_not_cleared_on_failure (st : NfaState) (e1 e2 : String) :
    (convRun ⟨st, []⟩ [.submit, .dfaFailure e1, .grammarFailure e2]).comp.loading = true
    ∧ (convRun ⟨st, []⟩ [.submit, .dfaFailure e1, .grammarFailure e2]).alerts
      = [errorAlert e1, errorAlert e2]
    ∧ (convRun ⟨st, []⟩ [.submit, .dfaFailure e1, .grammarFailure e2]).comp.graphInput
      = st.graphInput
    ∧ (convRun ⟨st, []⟩ [.submit, .dfaFailure e1, .grammarFailure e2]).comp.resultingGrammar
      = st.resultingGrammar
    ∧ (convRun ⟨st, []⟩ [.submit, .dfaFailure e1, .grammarFailure e2]).comp.resultingAlphabet
      = st.resultingAlphabet
    ∧ (convRun ⟨st, []⟩ [.submit, .dfaFailure e1, .grammarFailure e2]).comp.resultingStates
      = st.resultingStates
    ∧ (convRun ⟨st, []⟩ [.submit, .dfaFailure e1, .grammarFailure e2]).comp.resultingInitial
      = st.resultingInitial
    ∧ (convRun ⟨st, []⟩ [.submit, .dfaFailure e1, .grammarFailure e2]).comp.resultingFinals
      = st.resultingFinals
    ∧ (convRun ⟨st, []⟩ [.submit, .dfaFailure e1, .grammarFailure e2]).comp.resultingTransitionMap
      = st.resultingTransitionMap :=
  ⟨rfl, rfl, rfl, rfl, rfl, rfl, rfl, rfl, rfl⟩

/-! ### Component state of `UiContainer` (src/unnamed/part_000)

Here the transition map lives in the state as raw text (`transitionMap: ''`,
edited through a plain `<textarea>`); `JSON.parse` runs only inside
`_generateGraphInput`, which the Visualize button invokes.  `JSON.parse` is a
host builtin, modelled as an explicit `parse` collaborator returning `none`
where the builtin would throw on malformed text. -/

/-- Graph-input object built by `_generateGraphInput` (part_000 156-164);
`initial` is `clone(state.initial)[0]`, `undefined` (`none`) on an empty
list. -/
structure UiGraphInput where
  alphabet : List String
  states : List String
  initial : Option String
  finals : List String
  transitionMap : TransMap
deriving DecidableEq, Repr

/-- The component state of class `UiContainer` (constructor, part_000 16-23).
The sample states `[0, 1]` are tag-editor entries, kept as strings. -/
structure UiState where
  alphabet : List String
  states : List String
  initial : List String
  finals : List String
  transitionMap : String
  graphInput : Option UiGraphInput
deriving DecidableEq, Repr

/-- The constructor's initial `this.state` of `UiContainer`. -/
def uiState0 : UiState :=
  { alphabet := ["a", "b", "c"]
    states := ["0", "1"]
    initial := ["0"]
    finals := ["1"]
    transitionMap := ""
    graphInput := none }

/-- `_handleAlphabetChange(alphabet)` of `UiContainer` (part_000 166-168). -/
def uiHandleAlphabetChange (st : UiState) (alphabet : List String) : UiState :=
  { st with alphabet := alphabet }

/-- `_handleStatesChange(states)` of `UiContainer` (part_000 170-172). -/
def uiHandleStatesChange (st : UiState) (states : List String) : UiState :=
  { st with states := states }

/-- `_handleInitialChange(initial)` of `UiContainer` (part_000 174-176). -/
def uiHandleInitialChange (st : UiState) (initial : List String) : UiState :=
  { st with initial := initial }

/-- `_handleFinalsChange(finals)` of `UiContainer` (part_000 178-180). -/
def uiHandleFinalsChange (st : UiState) (finals : List String) : UiState :=
  { st with finals := finals }

/-- `_handleTransitionMapChange(event)` of `UiContainer` (part_000 182-184):
`this.setState({transitionMap: event.target.value})` — the raw editor text is
stored verbatim, with no parse and no validation. -/
def uiHandleTransitionMapChange (st : UiState) (value : String) : UiState :=
  { st with transitionMap := value }

/-- `_generateGraphInput(state)` of `UiContainer` (part_000 156-164):
`transitionMap: JSON.parse(state.transitionMap)`; a `parse` failure (the
builtin throwing on malformed text) aborts the whole construction, hence
`none`. -/
def uiGenerateGraphInput (parse : String → Option TransMap) (st : UiState) :
    Option UiGraphInput :=
  (parse st.transitionMap).map (fun tm =>
    { alphabet := clone st.alphabet
      states := clone st.states
      initial := (clone st.initial)[0]?
      finals := clone st.finals
      transitionMap := tm })

/-- The Visualize button's `onClick` (part_000 136-147): build the graph
input from the current state and `setState({graphInput: generatedOut})`; if
`JSON.parse` throws inside `_generateGraphInput`, the exception propagates
and no `setState` happens (`none`). -/
def uiVisualizeClick (parse : String → Option TransMap) (st : UiState) :
    Option UiState :=
  (uiGenerateGraphInput parse st).map (fun generatedOut =>
    { st with graphInput := some generatedOut })

/-! ### Claim C4: deferred parsing of the transition-map text -/

/-- C4: editing the transition-map field stores the raw text verbatim —
whatever the value, even one the parser rejects — touching no other field and
consulting no parser; the raw text is parsed only when the Visualize action
runs: a malformed text surfaces there as the parse failure aborting the
update, and a well-formed text becomes the `graphInput` slice. -/
theorem transitionMap_edit_defers_parsing (parse : String → Option TransMap)
    (st : UiState) (value : String) :
    (uiHandleTransitionMapChange st value).transitionMap = value
    ∧ uiHandleTransitionMapChange st value = { st with transitionMap := value }
    ∧ (parse value = none →
        uiVisualizeClick parse (uiHandleTransitionMapChange st value) = none)
    ∧ (∀ tm, parse value = some tm →
        uiVisualizeClick parse (uiHandleTransitionMapChange st value) =
          some { st with
                  transitionMap := value
                  graphInput := some
                    { alphabet := st.alphabet
                      states := st.states
                      initial := st.initial[0]?
                      finals := st.finals
                      transitionMap := tm } }) := by
  refine ⟨rfl, rfl, ?_, ?_⟩
  · intro h
    simp [uiVisualizeClick, uiGenerateGraphInput, uiHandleTransitionMapChange, h]
  · intro tm h
    simp [uiVisualizeClick, uiGenerateGraphInput, uiHandleTransitionMapChange, h, clone]

/-- A stand-in for the `JSON.parse` collaborator: accepts only the text
`"{}"` (as the empty object), rejects everything else. -/
def parseStub (s : String) : Option TransMap :=
  if s = "{}" then some [] else none

/-- C4 (witness): with the stub parser, editing in the malformed text `"not
json"` stores it verbatim and Visualize then aborts on it; editing in `"{}"`
stores it verbatim and Visualize then sets the graph input. -/
theorem transitionMap_edit_defers_parsing_witness :
    (uiHandleTransitionMapChange uiState0 "not json").transitionMap = "not json"
    ∧ uiVisualizeClick parseStub (uiHandleTransitionMapChange uiState0 "not json") = none
    ∧ uiVisualizeClick parseStub (uiHandleTransitionMapChange uiState0 "{}") =
        some { uiState0 with
                transitionMap := "{}"
                graphInput := some
                  { alphabet := ["a", "b", "c"]
                    states := ["0", "1"]
                    initial := some "0"
                    finals := ["1"]
                    transitionMap := [] } } :=
  ⟨(transitionMap_edit_defers_parsing parseStub uiState0 "not json").1,
   (transitionMap_edit_defers_parsing parseStub uiState0 "not json").2.2.1 (by decide),
   ((transitionMap_edit_defers_parsing parseStub uiState0 "{}").2.2.2 [] (by decide)).trans
     (by decide)⟩

/-! ### Claim C9: each edit handler updates only its own field -/

/-- C9: every single-field edit handler of both components updates only its
own named field.  For the five `NfaToRegularGrammar` handlers the six result
fields, `graphInput` and `loading` are untouched (shown here together with
the handler landing its value in its own field); for the five `UiContainer`
handlers `graphInput` is untouched. -/
theorem edit_handlers_frame (st : NfaState) (u : UiState)
    (xs : List String) (tm : TransMap) (raw : String) :
    ((handleAlphabetChange st xs).alphabet = xs
      ∧ (handleAlphabetChange st xs).resultingAlphabet = st.resultingAlphabet
      ∧ (handleAlphabetChange st xs).resultingStates = st.resultingStates
      ∧ (handleAlphabetChange st xs).resultingInitial = st.resultingInitial
      ∧ (handleAlphabetChange st xs).resultingFinals = st.resultingFinals
      ∧ (handleAlphabetChange st xs).resultingTransitionMap = st.resultingTransitionMap
      ∧ (handleAlphabetChange st xs).resultingGrammar = st.resultingGrammar
      ∧ (handleAlphabetChange st xs).graphInput = st.graphInput
      ∧ (handleAlphabetChange st xs).loading = st.loading)
    ∧ ((handleStatesChange st xs).states = xs
      ∧ (handleStatesChange st xs).resultingAlphabet = st.resultingAlphabet
      ∧ (handleStatesChange st xs).resultingStates = st.resultingStates
      ∧ (handleStatesChange st xs).resultingInitial = st.resultingInitial
      ∧ (handleStatesChange st xs).resultingFinals = st.resultingFinals
      ∧ (handleStatesChange st xs).resultingTransitionMap = st.resultingTransitionMap
      ∧ (handleStatesChange st xs).resultingGrammar = st.resultingGrammar
      ∧ (handleStatesChange st xs).graphInput = st.graphInput
      ∧ (handleStatesChange st xs).loading = st.loading)
    ∧ ((handleInitialChange st xs).initial = xs
      ∧ (handleInitialChange st xs).resultingAlphabet = st.resultingAlphabet
      ∧ (handleInitialChange st xs).resultingStates = st.resultingStates
      ∧ (handleInitialChange st xs).resultingInitial = st.resultingInitial
      ∧ (handleInitialChange st xs).resultingFinals = st.resultingFinals
      ∧ (handleInitialChange st xs).resultingTransitionMap = st.resultingTransitionMap
      ∧ (handleInitialChange st xs).resultingGrammar = st.resultingGrammar
      ∧ (handleInitialChange st xs).graphInput = st.graphInput
      ∧ (handleInitialChange st xs).loading = st.loading)
    ∧ ((handleFinalsChange st xs).finals = xs
      ∧ (handleFinalsChange st xs).resultingAlphabet = st.resultingAlphabet
      ∧ (handleFinalsChange st xs).resultingStates = st.resultingStates
      ∧ (handleFinalsChange st xs).resultingInitial = st.resultingInitial
      ∧ (handleFinalsChange st xs).resultingFinals = st.resultingFinals
      ∧ (handleFinalsChange st xs).resultingTransitionMap = st.resultingTransitionMap
      ∧ (handleFinalsChange st xs).resultingGrammar = st.resultingGrammar
      ∧ (handleFinalsChange st xs).graphInput = st.graphInput
      ∧ (handleFinalsChange st xs).loading = st.loading)
    ∧ ((handleTransitionMapChange st tm).transitionMap = tm
      ∧ (handleTransitionMapChange st tm).resultingAlphabet = st.resultingAlphabet
      ∧ (handleTransitionMapChange st tm).resultingStates = st.resultingStates
      ∧ (handleTransitionMapChange st tm).resultingInitial = st.resultingInitial
      ∧ (handleTransitionMapChange st tm).resultingFinals = st.resultingFinals
      ∧ (handleTransitionMapChange st tm).resultingTransitionMap = st.resultingTransitionMap
      ∧ (handleTransitionMapChange st tm).resultingGrammar = st.resultingGrammar
      ∧ (handleTransitionMapChange st tm).graphInput = st.graphInput
      ∧ (handleTransitionMapChange st tm).loading = st.loading)
    ∧ ((uiHandleAlphabetChange u xs).alphabet = xs
      ∧ (uiHandleAlphabetChange u xs).graphInput = u.graphInput
      ∧ (uiHandleAlphabetChange u xs).transitionMap = u.transitionMap)
    ∧ ((uiHandleStatesChange u xs).states = xs
      ∧ (uiHandleStatesChange u xs).graphInput = u.graphInput
      ∧ (uiHandleStatesChange u xs).transitionMap = u.transitionMap)
    ∧ ((uiHandleInitialChange u xs).initial = xs
      ∧ (uiHandleInitialChange u xs).graphInput = u.graphInput
      ∧ (uiHandleInitialChange u xs).transitionMap = u.transitionMap)
    ∧ ((uiHandleFinalsChange u xs).finals = xs
      ∧ (uiHandleFinalsChange u xs).graphInput = u.graphInput
      ∧ (uiHandleFinalsChange u xs).transitionMap = u.transitionMap)
    ∧ ((uiHandleTransitionMapChange u raw).transitionMap = raw
      ∧ (uiHandleTransitionMapChange u raw).graphInput = u.graphInput
      ∧ (uiHandleTransitionMapChange u raw).alphabet = u.alphabet) := by
  refine ⟨?_, ?_, ?_, ?_, ?_, ?_, ?_, ?_, ?_, ?_⟩ <;>
    first
      | exact ⟨rfl, rfl, rfl, rfl, rfl, rfl, rfl, rfl, rfl⟩
      | exact ⟨rfl, rfl, rfl⟩

/-! ### Spec-modelled Automaton Specification Model and Graph Projection

The repository ships no `validate` and no `project`/`converter` source: the
graph converter is imported from `utils/transform-from-dfa-to-graph`, a file
absent from the sample, and `validate` exists only as the specification's
nominal-core contract (spec section 4.1).  Both are therefore modelled from
the specification's words below. -/

/-- Modelled from the spec: an `AutomatonSpec` value (spec section 3) — the
validated automaton with exactly one `initial` state; the transition map is
already parsed (the raw-text parse step, whose failure the spec names
`MalformedTransitionMap`, happens at the `JSON.parse` boundary modelled by
the `parse` collaborator of `UiContainer`). -/
structure AutomatonSpec where
  alphabet : List String
  states : List String
  initial : String
  finals : List String
  transitionMap : TransMap
deriving DecidableEq, Repr

/-- Modelled from the spec: the named validation failures of `validate`
(spec section 4.1). -/
inductive ValidationError where
  | MissingInitialState
  | UnknownFinalState
  | DanglingTransitionReference
deriving DecidableEq, Repr

/-- Modelled from the spec: every state and symbol a transition references is
drawn from `states` and `alphabet` (spec section 3 invariants). -/
def danglingFree (spec : AutomatonSpec) : Prop :=
  ∀ p ∈ spec.transitionMap, p.1 ∈ spec.states ∧
    ∀ q ∈ p.2, q.1 ∈ spec.alphabet ∧ ∀ d ∈ q.2, d ∈ spec.states

instance (spec : AutomatonSpec) : Decidable (danglingFree spec) := by
  unfold danglingFree; infer_instance

/-- Modelled from the spec: `validate(spec) -> Result<AutomatonSpec,
ValidationError>` (spec section 4.1), checking the named invariants in the
order the spec lists their errors: `MissingInitialState` if `initial` is not
a member of `states`, `UnknownFinalState` if some `finals` entry is not a
member of `states`, `DanglingTransitionReference` if the transition map
references an undeclared state or symbol. -/
def validate (spec : AutomatonSpec) : Except ValidationError AutomatonSpec :=
  if spec.initial ∈ spec.states then
    if ∀ f ∈ spec.finals, f ∈ spec.states then
      if danglingFree spec then
        .ok spec
      else .error .DanglingTransitionReference
    else .error .UnknownFinalState
  else .error .MissingInitialState

/-- Modelled from the spec: the style hint of a node — `initial` if the state
equals `spec.initial`, `final` if it is a member of `spec.finals`; a state
may be both (spec section 4.2). -/
structure StyleHint where
  isInitial : Bool
  isFinal : Bool
deriving DecidableEq, Repr

/-- Modelled from the spec: a node of the graph projection,
`{id, label, styleHint}` (spec section 3). -/
structure GraphNode where
  id : String
  label : String
  styleHint : StyleHint
deriving DecidableEq, Repr

/-- Modelled from the spec: a directed labelled edge of the graph projection,
`{from, to, label}` (spec section 3). -/
structure GraphEdge where
  fromState : String
  toState : String
  label : String
deriving DecidableEq, Repr

/-- Modelled from the spec: the directed-graph structure `{nodes, edges}`
(spec section 3). -/
structure GraphProjection where
  nodes : List GraphNode
  edges : List GraphEdge
deriving DecidableEq, Repr

/-- Modelled from the spec: one node per state, styled by comparison with
`spec.initial` and membership in `spec.finals` (spec section 4.2). -/
def projectNodes (spec : AutomatonSpec) : List GraphNode :=
  spec.states.map (fun s =>
    { id := s
      label := s
      styleHint := { isInitial := decide (s = spec.initial)
                     isFinal := decide (s ∈ spec.finals) } })

/-- Modelled from the spec: one raw `(from, to, symbol)` triple per
destination of each `(state, symbol)` entry of the transition map (spec
section 4.2). -/
def rawEdges (tm : TransMap) : List (String × String × String) :=
  tm.flatMap (fun p => p.2.flatMap (fun q => q.2.map (fun d => (p.1, d, q.1))))

/-- Modelled from the spec: merge a raw triple into the accumulated edges —
an existing edge with the same `(from, to)` pair absorbs the symbol into its
comma-separated label, otherwise a new edge is appended (spec section 4.2,
"preserving the order symbols were first seen"). -/
def mergeInto : List GraphEdge → String × String × String → List GraphEdge
  | [], (f, t, sym) => [{ fromState := f, toState := t, label := sym }]
  | e :: es, (f, t, sym) =>
    if e.fromState = f ∧ e.toState = t then
      { e with label := e.label ++ "," ++ sym } :: es
    else e :: mergeInto es (f, t, sym)

/-- Modelled from the spec: `project(spec) -> GraphProjection`
(spec section 4.2). -/
def project (spec : AutomatonSpec) : GraphProjection :=
  { nodes := projectNodes spec
    edges := (rawEdges spec.transitionMap).foldl mergeInto [] }

/-! ### Claims C7 and C8 about the spec-modelled core -/

/-- C7: for every spec whose initial state is not a member of its states
list, `validate` rejects the spec, failing with `MissingInitialState`. -/
theorem validate_missing_initial (spec : AutomatonSpec)
    (h : spec.initial ∉ spec.states) :
    validate spec = .error .MissingInitialState := by
  simp [validate, h]

/-- C7 (witness): a spec whose `initial` is `"Z"` while its states are
`["Q", "W"]` is rejected with `MissingInitialState`. -/
theorem validate_missing_initial_witness :
    ("Z" : String) ∉ (["Q", "W"] : List String)
    ∧ validate
        { alphabet := ["a"]
          states := ["Q", "W"]
          initial := "Z"
          finals := ["W"]
          transitionMap := [] } = .error .MissingInitialState :=
  ⟨by decide,
   validate_missing_initial
     { alphabet := ["a"]
       states := ["Q", "W"]
       initial := "Z"
       finals := ["W"]
       transitionMap := [] } (by decide)⟩

theorem mergeInto_endpoints (S : List String) (acc : List GraphEdge)
    (f t sym : String)
    (hacc : ∀ e ∈ acc, e.fromState ∈ S ∧ e.toState ∈ S)
    (hf : f ∈ S) (ht : t ∈ S) :
    ∀ e ∈ mergeInto acc (f, t, sym), e.fromState ∈ S ∧ e.toState ∈ S := by
  induction acc with
  | nil =>
    intro e he
    simp only [mergeInto, List.mem_singleton] at he
    subst he
    exact ⟨hf, ht⟩
  | cons x xs ih =>
    intro e he
    simp only [mergeInto] at he
    by_cases hft : x.fromState = f ∧ x.toState = t
    · rw [if_pos hft] at he
      rcases List.mem_cons.mp he with rfl | hxs
      · exact hacc x (List.mem_cons_self x xs)
      · exact hacc e (List.mem_cons_of_mem x hxs)
    · rw [if_neg hft] at he
      rcases List.mem_cons.mp he with heq | hxs
      · subst heq
        exact hacc e (List.mem_cons_self e xs)
      · exact ih (fun e' he' => hacc e' (List.mem_cons_of_mem x he')) e hxs

theorem foldl_mergeInto_endpoints (S : List String) :
    ∀ (raw : List (String × String × String)) (acc : List GraphEdge),
      (∀ r ∈ raw, r.1 ∈ S ∧ r.2.1 ∈ S) →
      (∀ e ∈ acc, e.fromState ∈ S ∧ e.toState ∈ S) →
      ∀ e ∈ raw.foldl mergeInto acc, e.fromState ∈ S ∧ e.toState ∈ S := by
  intro raw
  induction raw with
  | nil =>
    intro acc _ hacc e he
    exact hacc e he
  | cons r rs ih =>
    intro acc hraw hacc e he
    obtain ⟨f, t, sym⟩ := r
    rw [List.foldl_cons] at he
    refine ih (mergeInto acc (f, t, sym))
      (fun r' hr' => hraw r' (List.mem_cons_of_mem _ hr')) ?_ e he
    exact mergeInto_endpoints S acc f t sym hacc
      (hraw (f, t, sym) (List.mem_cons_self _ _)).1
      (hraw (f, t, sym) (List.mem_cons_self _ _)).2

theorem rawEdges_endpoints (spec : AutomatonSpec) (hd : danglingFree spec) :
    ∀ r ∈ rawEdges spec.transitionMap, r.1 ∈ spec.states ∧ r.2.1 ∈ spec.states := by
  intro r hr
  unfold rawEdges at hr
  rcases List.mem_flatMap.mp hr with ⟨p, hp, hr2⟩
  rcases List.mem_flatMap.mp hr2 with ⟨q, hq, hr3⟩
  rcases List.mem_map.mp hr3 with ⟨d, hdest, rfl⟩
  obtain ⟨hp1, hrest⟩ := hd p hp
  obtain ⟨_, hdests⟩ := hrest q hq
  exact ⟨hp1, hdests d hdest⟩

/-- C8: for every valid `AutomatonSpec` (one `validate` accepts), the graph
projection produces exactly one node per state — styled `initial` exactly
when its id equals the spec's initial state, `final` exactly when its id is a
member of the spec's finals — and never references a node id absent from the
spec's states: every edge endpoint is a member of `states`. -/
theorem project_nodes_edges (spec : AutomatonSpec)
    (h : validate spec = .ok spec) :
    (project spec).nodes.map GraphNode.id = spec.states
    ∧ (∀ n ∈ (project spec).nodes,
        (n.styleHint.isInitial = true ↔ n.id = spec.initial)
        ∧ (n.styleHint.isFinal = true ↔ n.id ∈ spec.finals))
    ∧ (∀ e ∈ (project spec).edges,
        e.fromState ∈ spec.states ∧ e.toState ∈ spec.states) := by
  have hd : danglingFree spec := by
    unfold validate at h
    split_ifs at h with h1 h2 h3
    exact h3
  refine ⟨?_, ?_, ?_⟩
  · show (spec.states.map _).map GraphNode.id = spec.states
    rw [List.map_map]
    exact List.map_id spec.states
  · intro n hn
    rcases List.mem_map.mp hn with ⟨s, _, rfl⟩
    constructor
    · show decide (s = spec.initial) = true ↔ s = spec.initial
      exact decide_eq_true_iff
    · show decide (s ∈ spec.finals) = true ↔ s ∈ spec.finals
      exact decide_eq_true_iff
  · intro e he
    exact foldl_mergeInto_endpoints spec.states (rawEdges spec.transitionMap) []
      (rawEdges_endpoints spec hd) (by intro e' he'; cases he') e he

/-- The specification's section-8 example automaton: `states=["Q","W"],
initial="Q", finals=["W"], alphabet=["a","b"],
transitionMap={Q:{a:["W"]}, W:{b:["Q"]}}`. -/
def specExample : AutomatonSpec :=
  { alphabet := ["a", "b"]
    states := ["Q", "W"]
    initial := "Q"
    finals := ["W"]
    transitionMap := [("Q", [("a", ["W"])]), ("W", [("b", ["Q"])])] }

/-- C8 (witness): the section-8 example validates, projects to exactly the
two nodes `Q`, `W` in order, and every edge endpoint is a declared state. -/
theorem project_nodes_edges_witness :
    validate specExample = .ok specExample
    ∧ (project specExample).nodes.map GraphNode.id = ["Q", "W"]
    ∧ (∀ e ∈ (project specExample).edges,
        e.fromState ∈ specExample.states ∧ e.toState ∈ specExample.states) :=
  ⟨rfl,
   (project_nodes_edges specExample rfl).1,
   (project_nodes_edges specExample rfl).2.2⟩
